import Mathlib

/-!
Verification of the Feasleeple audit engine (src/app.py).

Dates are modelled as integers (a day number on the proleptic calendar line);
the weekday of day `d` is `DAY_OPTIONS[d mod 7]`, so day `0` is a Monday.
Python floats holding hour counts are modelled as rationals.
-/

namespace SleepApp

/-- `DAY_OPTIONS` from app.py line 20: the fixed list of weekday names. -/
def DAY_OPTIONS : List String :=
  ["Monday", "Tuesday", "Wednesday", "Thursday", "Friday", "Saturday", "Sunday"]

/-- `MAX_WORK_CAPACITY` from app.py line 19. -/
def MAX_WORK_CAPACITY : ℚ := 13

/-- The weekday name of a calendar day (`day_name()` / `strftime('%A')` in the
source): weekdays repeat with period 7 along the calendar line. -/
def weekdayName (d : ℤ) : String := DAY_OPTIONS.getD (d % 7).toNat ""

/-- A task record as built by the input form (app.py lines 317-320):
fields `name`, `time` (hours), `days`, `start`, `end`. -/
structure Task where
  name : String
  time : ℚ
  days : List String
  start : ℤ
  «end» : ℤ
deriving DecidableEq

/-- The list of calendar days of an inclusive range, ascending
(`pd.date_range(start, end, freq='D')`): empty when `e < s`. -/
def dateRange (s e : ℤ) : List ℤ :=
  (List.range (e - s + 1).toNat).map (fun (i : ℕ) => s + (i : ℤ))

/-- The remainder-day scan inside `calculate_total_scheduled_hours`
(app.py lines 140-144): walk `count` consecutive days from `start`, adding
`time` whenever the weekday name is in `days`. -/
def scanLoad (start : ℤ) (count : ℕ) (days : List String) (time : ℚ) : ℚ :=
  (List.range count).foldl
    (fun (acc : ℚ) (i : ℕ) => if weekdayName (start + (i : ℤ)) ∈ days then acc + time else acc) 0

/-- The per-task body of `calculate_total_scheduled_hours` (app.py
lines 127-146): full elapsed weeks times recurring-weekday count times hours,
plus a scan of the fewer-than-7 remainder days starting at the task's start. -/
def task_scheduled_hours (task : Task) : ℚ :=
  let days_per_week : ℤ := (task.days.length : ℤ)
  let total_days_in_range : ℤ := (task.«end» - task.start) + 1
  let full_weeks : ℤ := total_days_in_range / 7
  let remaining_days : ℤ := total_days_in_range % 7
  let base : ℚ := ((full_weeks * days_per_week : ℤ) : ℚ) * task.time
  if 0 < remaining_days then
    base + scanLoad task.start remaining_days.toNat task.days task.time
  else base

/-- `calculate_total_scheduled_hours` (app.py lines 124-147): sum the per-task
closed-form-plus-remainder hours over the whole task list. -/
def calculate_total_scheduled_hours (tasks_list : List Task) : ℚ :=
  tasks_list.foldl (fun total_hours task => total_hours + task_scheduled_hours task) 0

/-- Brute-force reference stated by the spec: a day-by-day scan over one
task's own inclusive `[start, end]` range, adding `task.time` on each day
whose weekday name is in `task.days`. -/
def brute_force_task_hours (task : Task) : ℚ :=
  ((dateRange task.start task.«end»).map
    (fun d => if weekdayName d ∈ task.days then task.time else 0)).sum

/-- Brute-force reference stated by the spec, summed across all tasks. -/
def brute_force_total (tasks : List Task) : ℚ :=
  (tasks.map brute_force_task_hours).sum

/-- The `Task_Load` accumulation of `run_audit` (app.py lines 200-213),
restricted to a single day: each task adds its `time` to the day's load
exactly when `start <= d`, `d <= end` and the day's weekday name is in
the task's `days`. -/
def dayLoad (tasks : List Task) (d : ℤ) : ℚ :=
  tasks.foldl
    (fun acc task =>
      if task.start ≤ d ∧ d ≤ task.«end» ∧ weekdayName d ∈ task.days then acc + task.time
      else acc) 0

/-- One row of the audit dataframe built by `run_audit`. -/
structure DailyRecord where
  date : ℤ
  dayOfWeek : String
  maxCapacity : ℚ
  taskLoad : ℚ
  overloadHours : ℚ
  overloadFlag : String
deriving DecidableEq

/-- The per-day core of `run_audit` (app.py lines 193-217): one record per
day of the window, with `Overload_Hours = Task_Load - Max_Capacity` and
`Overload_Flag = 'Overload Day' if x > 0 else 'OK'`. This is the audit
dataframe the function computes before the visualization assembly; the full
function body, its state write and its failure path included, is
`run_audit_full` below. -/
def run_audit (tasks : List Task) (audit_start audit_end : ℤ) : List DailyRecord :=
  (dateRange audit_start audit_end).map (fun d =>
    let load := dayLoad tasks d
    { date := d
      dayOfWeek := weekdayName d
      maxCapacity := MAX_WORK_CAPACITY
      taskLoad := load
      overloadHours := load - MAX_WORK_CAPACITY
      overloadFlag := if load - MAX_WORK_CAPACITY > 0 then "Overload Day" else "OK" })

/-- The contribution of one task to one day, as the spec states it:
`task.hours` iff `task.start <= d <= task.end` and `weekday_name(d) ∈ task.days`,
else `0`. -/
def contributes (task : Task) (d : ℤ) : ℚ :=
  if task.start ≤ d ∧ d ≤ task.«end» ∧ weekdayName d ∈ task.days then task.time else 0

/-- One row of the visualization dataframe built by `run_audit`
(app.py lines 219-242). -/
structure VizRow where
  date : ℤ
  hours : ℚ
  type : String
  taskName : String
deriving DecidableEq

/-- The visualization rows `run_audit` assembles (app.py lines 222-239): per
day one capacity-marker row, then one row per task active on that day, in
task-list order. -/
def viz_rows (tasks : List Task) : List ℤ → List VizRow
  | [] => []
  | d :: rest =>
    ({ date := d, hours := MAX_WORK_CAPACITY, type := "Max Capacity",
       taskName := "Max Capacity" } ::
      tasks.filterMap (fun task =>
        if weekdayName d ∈ task.days ∧ task.start ≤ d ∧ d ≤ task.«end» then
          some { date := d, hours := task.time, type := "Task Load", taskName := task.name }
        else none)) ++ viz_rows tasks rest

/-- The ambient session state `run_audit` touches: the task list it reads
(`st.session_state.tasks`) and the visualization dataframe it writes
(`st.session_state.viz_df`, app.py lines 241-242). -/
structure SessionState where
  tasks : List Task
  viz_df : List VizRow
deriving DecidableEq

/-- `run_audit` as a state transformer over the session state, on its
successful path: it returns the audit dataframe and writes the freshly
built visualization rows into `viz_df` (app.py lines 193-244). The failure
path of the visualization assembly on an empty window is captured by
`run_audit_full` below, which agrees with this definition whenever the
window is valid. -/
def run_audit_state (st : SessionState) (audit_start audit_end : ℤ) :
    List DailyRecord × SessionState :=
  (run_audit st.tasks audit_start audit_end,
   { st with viz_df := viz_rows st.tasks (dateRange audit_start audit_end) })

/-- The pandas exception the visualization assembly of `run_audit` can
raise: `pd.DataFrame([])` built from an empty `viz_data` at app.py line 241
has no columns at all, so the column access `viz_df['Date']` at line 242
raises `KeyError: 'Date'`. -/
inductive PandasError where
  | keyErrorDate
deriving DecidableEq

/-- The complete `run_audit` function body (app.py lines 193-244): compute
the audit dataframe, assemble the visualization rows, store them into
session state (line 241), then normalize the `'Date'` column (line 242) and
return the audit dataframe. When `viz_data` is empty — which happens exactly
when the date range is empty, since every day contributes a capacity-marker
row — the frame built at line 241 has no `'Date'` column and the access at
line 242 raises `KeyError: 'Date'` instead of reaching the `return`; the
line-241 store has already happened at that point. On a nonempty window the
`'Date'` re-assignment is the identity in this date model. -/
def run_audit_full (st : SessionState) (audit_start audit_end : ℤ) :
    Except PandasError (List DailyRecord) × SessionState :=
  let audit_df := run_audit st.tasks audit_start audit_end
  let viz_data := viz_rows st.tasks (dateRange audit_start audit_end)
  let st2 : SessionState := { st with viz_df := viz_data }
  (if viz_data = [] then .error .keyErrorDate else .ok audit_df, st2)

/-- Outcome of clicking "Run Daily Audit" (app.py lines 357-364): warn when
there are no tasks, report an error when `audit_start > audit_end`, and only
otherwise invoke `run_audit`. -/
inductive AuditOutcome where
  | warnNoTasks
  | errorInvalidRange
  | ran (records : List DailyRecord)
deriving DecidableEq

/-- The audit-trigger branch of the UI (app.py lines 357-364). -/
def audit_button_click (tasks : List Task) (audit_start audit_end : ℤ) : AuditOutcome :=
  if tasks = [] then .warnNoTasks
  else if audit_start > audit_end then .errorInvalidRange
  else .ran (run_audit tasks audit_start audit_end)

/-- The audit summary statistics (app.py lines 368-380). -/
structure AuditSummary where
  total_audited_hours : ℚ
  total_active_days : ℕ
  avg_daily_load : ℚ
deriving DecidableEq

/-- Summary-statistics block run after a successful audit (app.py
lines 368-380): filter the days with positive load, sum and count them, and
average with an explicit zero-active-days guard. -/
def audit_summary (audit_df : List DailyRecord) : AuditSummary :=
  let active_days := audit_df.filter (fun r => decide (0 < r.taskLoad))
  let total_hours_in_range := (active_days.map (fun r => r.taskLoad)).sum
  let total_active_days := active_days.length
  { total_audited_hours := total_hours_in_range
    total_active_days := total_active_days
    avg_daily_load :=
      if 0 < total_active_days then total_hours_in_range / (total_active_days : ℚ) else 0 }

/-- Summary sum as the spec states it: `task_load` summed over exactly the
days with `task_load > 0`. -/
def spec_total_audited (records : List DailyRecord) : ℚ :=
  (records.map (fun r => if 0 < r.taskLoad then r.taskLoad else 0)).sum

/-- Active-day count as the spec states it: the number of days with
`task_load > 0`. -/
def spec_active_days (records : List DailyRecord) : ℕ :=
  records.countP (fun r => decide (0 < r.taskLoad))

/-- Python `int()` applied to a nonneg-or-neg rational: truncation toward
zero (`hours = int(decimal_hours)` in app.py line 163). -/
def pyInt (q : ℚ) : ℤ := if 0 ≤ q then ⌊q⌋ else ⌈q⌉

/-- Python `round()` on a rational: round half to even
(`minutes = round(...)` in app.py line 164). -/
def pyRound (q : ℚ) : ℤ :=
  let f := ⌊q⌋
  let r := q - (f : ℚ)
  if r < 1 / 2 then f
  else if 1 / 2 < r then f + 1
  else if f % 2 = 0 then f else f + 1

/-- `format_hours_minutes` (app.py lines 160-168): renders a decimal hour
count as hours and minutes, with `<= 0` mapped to `"0 minutes"`. -/
def format_hours_minutes (decimal_hours : ℚ) : String :=
  if decimal_hours ≤ 0 then "0 minutes"
  else
    let hours : ℤ := pyInt decimal_hours
    let minutes : ℤ := pyRound ((decimal_hours - (hours : ℚ)) * 60)
    let parts : List String :=
      (if 0 < hours then [toString hours ++ " hour" ++ (if hours = 1 then "" else "s")]
       else []) ++
      (if 0 < minutes then [toString minutes ++ " minute" ++ (if minutes = 1 then "" else "s")]
       else [])
    let joined := String.intercalate " " parts
    if joined = "" then "0 minutes" else joined

/-- Cumulative day count before month `m` in a non-leap year. -/
def cumulativeDays (m : ℕ) : ℕ :=
  [0, 0, 31, 59, 90, 120, 151, 181, 212, 243, 273, 304, 334].getD m 0

/-- Gregorian leap-year rule. -/
def isLeap (y : ℕ) : Bool := (y % 4 == 0 && y % 100 != 0) || y % 400 == 0

/-- Day count of a Gregorian month. -/
def daysInMonth (y m : ℕ) : ℕ :=
  if m = 2 then (if isLeap y then 29 else 28)
  else if m = 4 ∨ m = 6 ∨ m = 9 ∨ m = 11 then 30 else 31

/-- Day number of a Gregorian calendar date on the integer day line. -/
def dayNumber (y m d : ℕ) : ℤ :=
  let p := y - 1
  ((365 * p + p / 4 - p / 100 + p / 400 + cumulativeDays m
      + (if 2 < m && isLeap y then 1 else 0) + d : ℕ) : ℤ)

/-- Split a character list into the groups separated by dashes. -/
def splitDash : List Char → List (List Char)
  | [] => [[]]
  | c :: cs =>
    if c = '-' then [] :: splitDash cs
    else
      match splitDash cs with
      | [] => [[c]]
      | g :: gs => (c :: g) :: gs

/-- Numeric value of a list of decimal digit characters. -/
def digitsVal (cs : List Char) : ℕ :=
  cs.foldl (fun n c => 10 * n + (c.toNat - 48)) 0

/-- Model of Python `datetime.date.fromisoformat`, as called by `load_tasks`
(app.py lines 53-54): accepts exactly `YYYY-MM-DD` with a valid month and
day, returning the date's day number; any other string raises `ValueError`,
modelled as `none`. -/
def date_fromisoformat (s : String) : Option ℤ :=
  match splitDash s.toList with
  | [ys, ms, ds] =>
    if ys.length = 4 && ms.length = 2 && ds.length = 2
        && ys.all Char.isDigit && ms.all Char.isDigit && ds.all Char.isDigit then
      let y := digitsVal ys
      let m := digitsVal ms
      let d := digitsVal ds
      if 1 ≤ y && 1 ≤ m && m ≤ 12 && 1 ≤ d && d ≤ daysInMonth y m then
        some (dayNumber y m d)
      else none
    else none
  | _ => none

/-- One record of the persisted JSON array: each field is `none` when the
key is missing from the stored dict; `start` and `end` are the stored
ISO-8601 strings. -/
structure RawRecord where
  name : Option String
  time : Option ℚ
  days : Option (List String)
  start : Option String
  «end» : Option String
deriving DecidableEq

/-- The states the persisted file can be in when `load_tasks` runs: no file
on disk, unparseable JSON, or a parsed JSON array of records. -/
inductive PersistedFile where
  | absent
  | invalidJson
  | records (rs : List RawRecord)
deriving DecidableEq

/-- The Python exceptions the date-conversion loop of `load_tasks` can
raise: `KeyError` on a missing `start`/`end` key, `ValueError` from
`date.fromisoformat` on a bad date string. -/
inductive LoadErr where
  | keyError
  | valueError
deriving DecidableEq

/-- A record after `load_tasks` converted its `start`/`end` strings to date
values; the remaining fields pass through untouched. -/
structure LoadedRecord where
  name : Option String
  time : Option ℚ
  days : Option (List String)
  start : ℤ
  «end» : ℤ
deriving DecidableEq

/-- The per-record body of the loop in `load_tasks` (app.py lines 52-54):
`task['start'] = date.fromisoformat(task['start'])` and likewise for
`'end'`; a missing key raises `KeyError`, a bad date string `ValueError`. -/
def parseRecordDates (r : RawRecord) : Except LoadErr LoadedRecord :=
  match r.start with
  | none => .error .keyError
  | some s =>
    match date_fromisoformat s with
    | none => .error .valueError
    | some ds =>
      match r.«end» with
      | none => .error .keyError
      | some e =>
        match date_fromisoformat e with
        | none => .error .valueError
        | some de => .ok ⟨r.name, r.time, r.days, ds, de⟩

/-- The whole conversion loop of `load_tasks`: records are processed in
order and the first exception raised aborts the loop. -/
def parseAllRecords : List RawRecord → Except LoadErr (List LoadedRecord)
  | [] => .ok []
  | r :: rest =>
    match parseRecordDates r with
    | .error e => .error e
    | .ok x =>
      match parseAllRecords rest with
      | .error e => .error e
      | .ok xs => .ok (x :: xs)

/-- `load_tasks` (app.py lines 44-58): an absent file yields `[]`; the
`try` block catches `json.JSONDecodeError`, `KeyError` and
`FileNotFoundError` and recovers with `[]`; a `ValueError` raised by
`date.fromisoformat` is not in the `except` clause and propagates. -/
def load_tasks (file : PersistedFile) : Except LoadErr (List LoadedRecord) :=
  match file with
  | .absent => .ok []
  | .invalidJson => .ok []
  | .records rs =>
    match parseAllRecords rs with
    | .ok out => .ok out
    | .error .keyError => .ok []
    | .error .valueError => .error .valueError

/-- Day-by-day hit sum: the total collected by scanning `count` consecutive
days from `start`, adding `time` on the days whose weekday name is in
`days`. This is the common map-sum form both of the remainder scan and of
the brute-force scan. -/
def weekdayHitSum (start : ℤ) (count : ℕ) (days : List String) (time : ℚ) : ℚ :=
  ((List.range count).map
    (fun (i : ℕ) => if weekdayName (start + (i : ℤ)) ∈ days then time else 0)).sum

theorem foldl_cond_add {α : Type} (p : α → Prop) [DecidablePred p] (w : α → ℚ) :
    ∀ (l : List α) (acc : ℚ),
      l.foldl (fun a x => if p x then a + w x else a) acc
        = acc + (l.map (fun x => if p x then w x else 0)).sum
  | [], acc => by simp
  | x :: xs, acc => by
    by_cases h : p x
    · simp [h, foldl_cond_add p w xs]
      ring
    · simp [h, foldl_cond_add p w xs]

theorem dayLoad_eq_sum (tasks : List Task) (d : ℤ) :
    dayLoad tasks d = (tasks.map (fun t => contributes t d)).sum := by
  have h := foldl_cond_add
    (fun t : Task => t.start ≤ d ∧ d ≤ t.«end» ∧ weekdayName d ∈ t.days)
    (fun t : Task => t.time) tasks 0
  simpa [dayLoad, contributes] using h

theorem mem_run_audit {tasks : List Task} {s e : ℤ} {r : DailyRecord}
    (hr : r ∈ run_audit tasks s e) :
    ∃ d ∈ dateRange s e,
      r = { date := d, dayOfWeek := weekdayName d, maxCapacity := MAX_WORK_CAPACITY,
            taskLoad := dayLoad tasks d,
            overloadHours := dayLoad tasks d - MAX_WORK_CAPACITY,
            overloadFlag :=
              if dayLoad tasks d - MAX_WORK_CAPACITY > 0 then "Overload Day" else "OK" } := by
  unfold run_audit at hr
  obtain ⟨d, hd, h⟩ := List.mem_map.mp hr
  exact ⟨d, hd, h.symm⟩

/-- Claim C2: in the audit, every task contributes exactly its hours to a
day's load iff the day lies in the task's inclusive date range and the day's
weekday name is one of the task's days (both directions, via the guarded
contribution `contributes`); a day's load is the sum of the contributions
over all tasks, and is 0 when the task list is empty. -/
theorem c2_day_load_is_sum_of_contributions (tasks : List Task) (s e : ℤ)
    (r : DailyRecord) (hr : r ∈ run_audit tasks s e) :
    r.taskLoad = (tasks.map (fun t => contributes t r.date)).sum
      ∧ (tasks = [] → r.taskLoad = 0) := by
  obtain ⟨d, hd, rfl⟩ := mem_run_audit hr
  refine ⟨?_, ?_⟩
  · show dayLoad tasks d = _
    exact dayLoad_eq_sum tasks d
  · rintro rfl
    rfl

/-- Witness for C2: for the task Work, 8 hours on Mondays and Tuesdays over
days 0..25, the Monday record of the one-day window day 0 carries load 8,
the sum of the contributions. -/
theorem c2_day_load_is_sum_of_contributions_witness :
    (⟨0, "Monday", 13, 8, -5, "OK"⟩ : DailyRecord).taskLoad
      = (([⟨"Work", 8, ["Monday", "Tuesday"], 0, 25⟩] : List Task).map
          (fun t => contributes t (⟨0, "Monday", 13, 8, -5, "OK"⟩ : DailyRecord).date)).sum :=
  (c2_day_load_is_sum_of_contributions [⟨"Work", 8, ["Monday", "Tuesday"], 0, 25⟩] 0 0
    ⟨0, "Monday", 13, 8, -5, "OK"⟩ (by
      rw [show run_audit [⟨"Work", 8, ["Monday", "Tuesday"], 0, 25⟩] 0 0
          = [(⟨0, "Monday", 13, 8, -5, "OK"⟩ : DailyRecord)] from by
        norm_num [run_audit, dateRange, dayLoad, weekdayName, DAY_OPTIONS,
          MAX_WORK_CAPACITY, List.range_succ]]
      exact List.mem_singleton.mpr rfl)).1

/-- Claim C3: every audit record satisfies
`overload_hours = task_load - MAX_CAPACITY` with `MAX_CAPACITY = 13`, is
flagged an overload day iff `overload_hours` is strictly positive, and a day
with load exactly 13 is classified OK. -/
theorem c3_overload_iff_strictly_positive (tasks : List Task) (s e : ℤ)
    (r : DailyRecord) (hr : r ∈ run_audit tasks s e) :
    r.overloadHours = r.taskLoad - MAX_WORK_CAPACITY
      ∧ MAX_WORK_CAPACITY = 13
      ∧ (r.overloadFlag = "Overload Day" ↔ 0 < r.overloadHours)
      ∧ (r.taskLoad = 13 → r.overloadFlag = "OK") := by
  obtain ⟨d, hd, rfl⟩ := mem_run_audit hr
  refine ⟨rfl, rfl, ?_, ?_⟩
  · show (if dayLoad tasks d - MAX_WORK_CAPACITY > 0 then "Overload Day" else "OK")
        = "Overload Day" ↔ 0 < dayLoad tasks d - MAX_WORK_CAPACITY
    by_cases h : dayLoad tasks d - MAX_WORK_CAPACITY > 0
    · rw [if_pos h]
      exact ⟨fun _ => h, fun _ => rfl⟩
    · rw [if_neg h]
      exact ⟨fun hh => absurd hh (by decide), fun hh => absurd hh h⟩
  · intro h13
    have h13l : dayLoad tasks d = 13 := h13
    show (if dayLoad tasks d - MAX_WORK_CAPACITY > 0 then "Overload Day" else "OK") = "OK"
    rw [h13l]
    norm_num [MAX_WORK_CAPACITY]

/-- Witness for C3: two Monday tasks of 9 and 5 hours overlap on day 0, the
record carries load 14, overload 1, and is flagged an overload day. -/
theorem c3_overload_iff_strictly_positive_witness :
    (⟨0, "Monday", 13, 14, 1, "Overload Day"⟩ : DailyRecord).overloadFlag = "Overload Day" :=
  ((c3_overload_iff_strictly_positive
      [⟨"A", 9, ["Monday"], 0, 10⟩, ⟨"B", 5, ["Monday"], 0, 10⟩] 0 0
      ⟨0, "Monday", 13, 14, 1, "Overload Day"⟩ (by
        rw [show run_audit [⟨"A", 9, ["Monday"], 0, 10⟩, ⟨"B", 5, ["Monday"], 0, 10⟩] 0 0
            = [(⟨0, "Monday", 13, 14, 1, "Overload Day"⟩ : DailyRecord)] from by
          norm_num [run_audit, dateRange, dayLoad, weekdayName, DAY_OPTIONS,
            MAX_WORK_CAPACITY, List.range_succ]]
        exact List.mem_singleton.mpr rfl)).2.2.1).mpr (by norm_num)

theorem dateRange_ne_nil {s e : ℤ} (h : s ≤ e) : dateRange s e ≠ [] := by
  unfold dateRange
  intro hnil
  rw [List.map_eq_nil_iff, List.range_eq_nil] at hnil
  omega

theorem run_audit_full_of_le (st : SessionState) (s e : ℤ) (h : s ≤ e) :
    run_audit_full st s e
      = (.ok (run_audit st.tasks s e), (run_audit_state st s e).2) := by
  have hvne : viz_rows st.tasks (dateRange s e) ≠ [] := by
    cases hd : dateRange s e with
    | nil => exact absurd hd (dateRange_ne_nil h)
    | cons d rest => simp [viz_rows]
  simp only [run_audit_full, run_audit_state]
  rw [if_neg hvne]

/-- Counterexample for C4: invoked with `audit_start > audit_end`, the full
`run_audit` does not signal an `InvalidRange` condition: the window is
empty, so `viz_data` stays empty and the `'Date'` column access at app.py
line 242 raises `KeyError: 'Date'` — an accidental crash of the
visualization assembly (the only error the function can produce; there is
no `InvalidRange` signal), reached before any sequence of Daily Records is
returned. -/
theorem c4_counterexample_key_error :
    (run_audit_full ⟨[⟨"Work", 8, ["Monday"], 0, 10⟩], []⟩ 1 0).1
      = .error .keyErrorDate := rfl

/-- Amended C4: invoked with `audit_start > audit_end`, the core neither
signals an `InvalidRange` condition nor returns a sequence of Daily
Records — it crashes with the uncaught `KeyError` from the visualization
assembly (app.py line 242, the empty frame having no `'Date'` column); the
deliberate rejection of `audit_start > audit_end` is performed by the
calling collaborator, which reports an error and never invokes the core on
such a window. -/
theorem c4_amended_key_error_and_caller_rejects (st : SessionState) (s e : ℤ)
    (h : e < s) :
    (run_audit_full st s e).1 = .error .keyErrorDate
      ∧ (st.tasks ≠ [] → audit_button_click st.tasks s e = .errorInvalidRange) := by
  have hdr : dateRange s e = [] := by
    unfold dateRange
    have h0 : (e - s + 1).toNat = 0 := by omega
    rw [h0]
    rfl
  constructor
  · unfold run_audit_full
    rw [hdr]
    rfl
  · intro ht
    unfold audit_button_click
    rw [if_neg ht, if_pos (by omega : s > e)]

/-- Witness for the amended C4 at a concrete session state and inverted
window. -/
theorem c4_amended_key_error_and_caller_rejects_witness :
    audit_button_click [⟨"Work", 8, ["Monday"], 0, 10⟩] 1 0 = .errorInvalidRange :=
  (c4_amended_key_error_and_caller_rejects ⟨[⟨"Work", 8, ["Monday"], 0, 10⟩], []⟩ 1 0
    (by norm_num)).2 (by simp)

/-- Counterexample for C5: `run_audit` does mutate external state — it
writes the freshly built visualization rows into the session state, so the
session state after a run differs from the one before. -/
theorem c5_counterexample_session_state_mutated :
    decide ((run_audit_state ⟨[], []⟩ 0 0).2 = (⟨[], []⟩ : SessionState)) = false := by
  simp [run_audit_state, viz_rows, dateRange, MAX_WORK_CAPACITY, List.range_succ]

/-- Amended C5: the audit result is fully determined by the task list and
the window (it does not depend on the rest of the session state), and the
task list is unchanged by the run; but `run_audit` does write the
visualization dataframe into the session state as a side effect. -/
theorem c5_amended_pure_in_tasks_and_window (st st2 : SessionState) (s e : ℤ)
    (h : st.tasks = st2.tasks) :
    (run_audit_state st s e).1 = (run_audit_state st2 s e).1
      ∧ (run_audit_state st s e).2.tasks = st.tasks := by
  constructor
  · show run_audit st.tasks s e = run_audit st2.tasks s e
    rw [h]
  · rfl

/-- Witness for the amended C5: two session states differing only in the
stored visualization rows produce the same audit result. -/
theorem c5_amended_pure_in_tasks_and_window_witness :
    (run_audit_state ⟨[], []⟩ 0 0).1
        = (run_audit_state ⟨[], [⟨5, 1, "Task Load", "X"⟩]⟩ 0 0).1
      ∧ (run_audit_state ⟨[], []⟩ 0 0).2.tasks = ([] : List Task) :=
  c5_amended_pure_in_tasks_and_window ⟨[], []⟩ ⟨[], [⟨5, 1, "Task Load", "X"⟩]⟩ 0 0 rfl

/-- Claim C6: for a valid window the audit yields one record per calendar
day, in strictly ascending date order, with length
`(audit_end - audit_start).days + 1`; a one-day window yields one record. -/
theorem c6_ordered_one_record_per_day (tasks : List Task) (s e : ℤ) (h : s ≤ e) :
    (run_audit tasks s e).map DailyRecord.date = dateRange s e
      ∧ ((run_audit tasks s e).map DailyRecord.date).Pairwise (· < ·)
      ∧ (run_audit tasks s e).length = (e - s).toNat + 1 := by
  have hmap : (run_audit tasks s e).map DailyRecord.date = dateRange s e := by
    unfold run_audit
    rw [List.map_map]
    exact List.map_id (dateRange s e)
  have hlen : (run_audit tasks s e).length = (e - s + 1).toNat := by
    unfold run_audit dateRange
    rw [List.length_map, List.length_map, List.length_range]
  refine ⟨hmap, ?_, ?_⟩
  · rw [hmap]
    unfold dateRange
    rw [List.pairwise_map]
    refine (List.pairwise_lt_range _).imp ?_
    intro a b hab
    dsimp only
    omega
  · rw [hlen]
    omega

/-- Witness for C6: a window with `audit_start = audit_end` yields exactly
one record. -/
theorem c6_ordered_one_record_per_day_witness : (run_audit [] 0 0).length = 1 := by
  have h := (c6_ordered_one_record_per_day [] 0 0 le_rfl).2.2
  simpa using h

/-- Claim C7: the summary statistics sum the load over exactly the days with
positive load, count exactly those days, and average as sum over count with
an explicit 0 when there are no active days (no division-by-zero fault). -/
theorem c7_summary_statistics (records : List DailyRecord) :
    (audit_summary records).total_audited_hours = spec_total_audited records
      ∧ (audit_summary records).total_active_days = spec_active_days records
      ∧ (audit_summary records).avg_daily_load
          = (if 0 < spec_active_days records then
              spec_total_audited records / (spec_active_days records : ℚ) else 0) := by
  have h1 : ((records.filter (fun r => decide (0 < r.taskLoad))).map
      (fun r => r.taskLoad)).sum = spec_total_audited records := by
    unfold spec_total_audited
    induction records with
    | nil => simp
    | cons r rs ih =>
      by_cases h : 0 < r.taskLoad <;> simp [List.filter_cons, h, ih]
  have h2 : (records.filter (fun r => decide (0 < r.taskLoad))).length
      = spec_active_days records := by
    unfold spec_active_days
    rw [List.countP_eq_length_filter]
  refine ⟨h1, h2, ?_⟩
  show (if 0 < (records.filter (fun r => decide (0 < r.taskLoad))).length then
      ((records.filter (fun r => decide (0 < r.taskLoad))).map (fun r => r.taskLoad)).sum
        / ((records.filter (fun r => decide (0 < r.taskLoad))).length : ℚ) else 0) = _
  rw [h1, h2]

theorem wd_congr {a b : ℤ} (h : a % 7 = b % 7) :
    weekdayName a = weekdayName b := by
  unfold weekdayName
  rw [h]

theorem dayOptions_sum (days : List String) (time : ℚ) (hnd : days.Nodup)
    (hv : ∀ x ∈ days, x ∈ DAY_OPTIONS) :
    (DAY_OPTIONS.map (fun nm => if nm ∈ days then time else 0)).sum
      = (days.length : ℚ) * time := by
  have hcount : ∀ l : List String,
      ((l.map (fun nm => if nm ∈ days then time else 0)).sum
        = ((l.countP (fun nm => decide (nm ∈ days))) : ℚ) * time) := by
    intro l
    induction l with
    | nil => simp
    | cons x xs ih =>
      by_cases h : x ∈ days
      · simp [h, ih, List.countP_cons]
        ring
      · simp [h, ih, List.countP_cons]
  have hc : DAY_OPTIONS.countP (fun nm => decide (nm ∈ days)) = days.length := by
    have hfil : DAY_OPTIONS.countP (fun nm => decide (nm ∈ days))
        = (DAY_OPTIONS.filter (fun nm => decide (nm ∈ days))).length :=
      List.countP_eq_length_filter _ _
    have hD : DAY_OPTIONS.Nodup := by decide
    have hnodup : (DAY_OPTIONS.filter (fun nm => decide (nm ∈ days))).Nodup := hD.filter _
    have hfinset : (DAY_OPTIONS.filter (fun nm => decide (nm ∈ days))).toFinset
        = days.toFinset := by
      ext x
      simp only [List.mem_toFinset, List.mem_filter, decide_eq_true_eq]
      exact ⟨fun hx => hx.2, fun hx => ⟨hv x hx, hx⟩⟩
    calc DAY_OPTIONS.countP (fun nm => decide (nm ∈ days))
        = (DAY_OPTIONS.filter (fun nm => decide (nm ∈ days))).length := hfil
      _ = (DAY_OPTIONS.filter (fun nm => decide (nm ∈ days))).toFinset.card :=
          (List.toFinset_card_of_nodup hnodup).symm
      _ = days.toFinset.card := by rw [hfinset]
      _ = days.length := List.toFinset_card_of_nodup hnd
  rw [hcount, hc]

theorem weekBlock (days : List String) (time : ℚ) (hnd : days.Nodup)
    (hv : ∀ x ∈ days, x ∈ DAY_OPTIONS) (s : ℤ) :
    weekdayHitSum s 7 days time = (days.length : ℚ) * time := by
  obtain ⟨m, hm7, hwd⟩ : ∃ m : ℕ, m < 7 ∧
      ∀ i : ℕ, weekdayName (s + (i : ℤ)) = weekdayName ((m : ℤ) + (i : ℤ)) :=
    ⟨(s % 7).toNat, by omega, fun i => wd_congr (by omega)⟩
  have hperm : ((List.range 7).map
      (fun (i : ℕ) => weekdayName ((m : ℤ) + (i : ℤ)))).Perm DAY_OPTIONS := by
    interval_cases m <;> decide
  unfold weekdayHitSum
  calc ((List.range 7).map
        (fun (i : ℕ) => if weekdayName (s + (i : ℤ)) ∈ days then time else 0)).sum
      = ((List.range 7).map
          (fun (i : ℕ) => if weekdayName ((m : ℤ) + (i : ℤ)) ∈ days then time else 0)).sum := by
        simp only [hwd]
    _ = (((List.range 7).map (fun (i : ℕ) => weekdayName ((m : ℤ) + (i : ℤ)))).map
          (fun nm => if nm ∈ days then time else 0)).sum := by
        rw [List.map_map]
        rfl
    _ = (DAY_OPTIONS.map (fun nm => if nm ∈ days then time else 0)).sum :=
        (hperm.map _).sum_eq
    _ = (days.length : ℚ) * time := dayOptions_sum days time hnd hv

theorem weekdayHitSum_add (start : ℤ) (a b : ℕ) (days : List String) (time : ℚ) :
    weekdayHitSum start (a + b) days time
      = weekdayHitSum start a days time + weekdayHitSum (start + (a : ℤ)) b days time := by
  have hfun : ((fun (i : ℕ) => if weekdayName (start + (i : ℤ)) ∈ days then time else 0)
        ∘ fun x => a + x)
      = (fun (i : ℕ) => if weekdayName ((start + (a : ℤ)) + (i : ℤ)) ∈ days then time else 0) := by
    funext i
    simp only [Function.comp_apply]
    have harg : start + ((a + i : ℕ) : ℤ) = (start + (a : ℤ)) + (i : ℤ) := by
      push_cast
      ring
    rw [harg]
  unfold weekdayHitSum
  rw [List.range_add, List.map_append, List.sum_append, List.map_map, hfun]

theorem weekdayHitSum_split (days : List String) (time : ℚ) (hnd : days.Nodup)
    (hv : ∀ x ∈ days, x ∈ DAY_OPTIONS) :
    ∀ (q r : ℕ) (start : ℤ),
      weekdayHitSum start (7 * q + r) days time
        = (q : ℚ) * (days.length : ℚ) * time + weekdayHitSum start r days time := by
  intro q
  induction q with
  | zero =>
    intro r start
    norm_num
  | succ q ih =>
    intro r start
    have h1 : 7 * (q + 1) + r = (7 * q + r) + 7 := by ring
    rw [h1, weekdayHitSum_add start (7 * q + r) 7 days time, ih r start,
        weekBlock days time hnd hv]
    push_cast
    ring

theorem scanLoad_eq (start : ℤ) (count : ℕ) (days : List String) (time : ℚ) :
    scanLoad start count days time = weekdayHitSum start count days time := by
  have h := foldl_cond_add (fun (i : ℕ) => weekdayName (start + (i : ℤ)) ∈ days)
    (fun _ => time) (List.range count) 0
  simpa [scanLoad, weekdayHitSum] using h

theorem brute_force_eq_hitSum (task : Task) :
    brute_force_task_hours task
      = weekdayHitSum task.start (task.«end» - task.start + 1).toNat task.days task.time := by
  unfold brute_force_task_hours dateRange weekdayHitSum
  rw [List.map_map]
  rfl

theorem cast_mul_q (m k : ℕ) (t : ℚ) :
    (((m : ℤ) * (k : ℤ) : ℤ) : ℚ) * t = (m : ℚ) * (k : ℚ) * t := by
  push_cast
  ring

theorem task_scheduled_hours_eq_brute (task : Task) (hse : task.start ≤ task.«end»)
    (hnd : task.days.Nodup) (hv : ∀ x ∈ task.days, x ∈ DAY_OPTIONS) :
    task_scheduled_hours task = brute_force_task_hours task := by
  simp only [task_scheduled_hours]
  rw [brute_force_eq_hitSum]
  set n : ℤ := task.«end» - task.start + 1 with hn
  have hn1 : 1 ≤ n := by omega
  set N : ℕ := n.toNat with hN
  have hed : n / 7 = ((N / 7 : ℕ) : ℤ) := by omega
  have htn : (n % 7).toNat = N % 7 := by omega
  have hsplit := weekdayHitSum_split task.days task.time hnd hv (N / 7) (N % 7) task.start
  have hNqr : 7 * (N / 7) + N % 7 = N := by omega
  rw [hNqr] at hsplit
  by_cases hr : 0 < n % 7
  · rw [if_pos hr, hsplit, scanLoad_eq, htn, hed, cast_mul_q]
  · rw [if_neg hr]
    have hr0 : N % 7 = 0 := by omega
    rw [hsplit, hr0]
    have h0 : weekdayHitSum task.start 0 task.days task.time = 0 := by
      unfold weekdayHitSum
      simp
    rw [h0, hed, cast_mul_q, add_zero]

/-- Claim C1: `calculate_total_scheduled_hours`, the
closed-form-plus-remainder computation, agrees with the brute-force
day-by-day scan over each task's own inclusive range, summed across all
tasks, for every task list whose tasks have `start <= end` and whose `days`
are sets (no duplicates) of genuine weekday names — covering in particular
all range spans and days-set sizes 0, 1 and 7. -/
theorem c1_total_scheduled_equals_brute_force (tasks : List Task)
    (h : ∀ t ∈ tasks, t.start ≤ t.«end» ∧ t.days.Nodup ∧ ∀ x ∈ t.days, x ∈ DAY_OPTIONS) :
    calculate_total_scheduled_hours tasks = brute_force_total tasks := by
  unfold calculate_total_scheduled_hours brute_force_total
  have key : ∀ (l : List Task) (acc : ℚ),
      (∀ t ∈ l, t.start ≤ t.«end» ∧ t.days.Nodup ∧ ∀ x ∈ t.days, x ∈ DAY_OPTIONS) →
      l.foldl (fun total_hours task => total_hours + task_scheduled_hours task) acc
        = acc + (l.map brute_force_task_hours).sum := by
    intro l
    induction l with
    | nil =>
      intro acc _
      simp
    | cons t ts ih =>
      intro acc hl
      have ht := hl t (List.mem_cons_self t ts)
      have hts : ∀ x ∈ ts, x.start ≤ x.«end» ∧ x.days.Nodup ∧ ∀ y ∈ x.days, y ∈ DAY_OPTIONS :=
        fun x hx => hl x (List.mem_cons_of_mem t hx)
      simp only [List.foldl_cons, List.map_cons, List.sum_cons]
      rw [ih (acc + task_scheduled_hours t) hts,
          task_scheduled_hours_eq_brute t ht.1 ht.2.1 ht.2.2]
      ring
  simpa using key tasks 0 h

/-- Witness for C1: a task of 8 hours on Mondays and Tuesdays over a 14-day
range; both computations agree (each yields 32). -/
theorem c1_total_scheduled_equals_brute_force_witness :
    calculate_total_scheduled_hours [⟨"Work", 8, ["Monday", "Tuesday"], 0, 13⟩]
      = brute_force_total [⟨"Work", 8, ["Monday", "Tuesday"], 0, 13⟩] :=
  c1_total_scheduled_equals_brute_force [⟨"Work", 8, ["Monday", "Tuesday"], 0, 13⟩]
    (by decide)

/-- Claim C8 (code-bug evidence): a persisted record whose date string is
malformed makes `load_tasks` raise an uncaught `ValueError` instead of
recovering with the empty list, while a missing key and undecodable JSON are
caught and recovered with the empty list. -/
theorem c8_bad_date_string_raises :
    load_tasks (.records
        [⟨some "A", some 1, some ["Monday"], some "not-a-date", some "2025-01-01"⟩])
      = .error .valueError
      ∧ load_tasks (.records [⟨some "A", some 1, some ["Monday"], none, some "2025-01-01"⟩])
        = .ok []
      ∧ load_tasks .invalidJson = .ok [] :=
  ⟨rfl, rfl, rfl⟩

/-- Claim C9: `format_hours_minutes` renders 1.5 as "1 hour 30 minutes",
2.0 as "2 hours", 0.25 as "15 minutes", 1.0 as "1 hour", and every
nonpositive input as "0 minutes". -/
theorem c9_format_hours_minutes_examples :
    format_hours_minutes (3 / 2) = "1 hour 30 minutes"
      ∧ format_hours_minutes 2 = "2 hours"
      ∧ format_hours_minutes (1 / 4) = "15 minutes"
      ∧ format_hours_minutes 1 = "1 hour"
      ∧ ∀ q : ℚ, q ≤ 0 → format_hours_minutes q = "0 minutes" := by
  refine ⟨?_, ?_, ?_, ?_, ?_⟩
  · have h1 : ¬ ((3 / 2 : ℚ) ≤ 0) := by norm_num
    have h2 : pyInt (3 / 2) = 1 := by norm_num [pyInt, Rat.floor_def]
    simp only [format_hours_minutes, if_neg h1, h2]
    rw [show ((3 / 2 : ℚ) - ((1 : ℤ) : ℚ)) * 60 = 30 by norm_num,
        show pyRound (30 : ℚ) = 30 by norm_num [pyRound, Rat.floor_def]]
    decide
  · have h1 : ¬ ((2 : ℚ) ≤ 0) := by norm_num
    have h2 : pyInt 2 = 2 := by norm_num [pyInt, Rat.floor_def]
    simp only [format_hours_minutes, if_neg h1, h2]
    rw [show ((2 : ℚ) - ((2 : ℤ) : ℚ)) * 60 = 0 by norm_num,
        show pyRound (0 : ℚ) = 0 by norm_num [pyRound, Rat.floor_def]]
    decide
  · have h1 : ¬ ((1 / 4 : ℚ) ≤ 0) := by norm_num
    have h2 : pyInt (1 / 4) = 0 := by norm_num [pyInt, Rat.floor_def]
    simp only [format_hours_minutes, if_neg h1, h2]
    rw [show ((1 / 4 : ℚ) - ((0 : ℤ) : ℚ)) * 60 = 15 by norm_num,
        show pyRound (15 : ℚ) = 15 by norm_num [pyRound, Rat.floor_def]]
    decide
  · have h1 : ¬ ((1 : ℚ) ≤ 0) := by norm_num
    have h2 : pyInt 1 = 1 := by norm_num [pyInt, Rat.floor_def]
    simp only [format_hours_minutes, if_neg h1, h2]
    rw [show ((1 : ℚ) - ((1 : ℤ) : ℚ)) * 60 = 0 by norm_num,
        show pyRound (0 : ℚ) = 0 by norm_num [pyRound, Rat.floor_def]]
    decide
  · intro q hq
    simp only [format_hours_minutes, if_pos hq]

/-- Witness for C9 at the nonpositive input 0. -/
theorem c9_format_hours_minutes_examples_witness :
    format_hours_minutes 0 = "0 minutes" :=
  c9_format_hours_minutes_examples.2.2.2.2 0 le_rfl

/-- Claim C10: for a positive input whose hours part truncates to 1 and
whose fractional minutes round to 60, `format_hours_minutes` outputs
"1 hour 60 minutes" — the minutes do not carry into the hours. -/
theorem c10_no_carry_sixty_minutes (h : ℚ) (h1 : pyInt h = 1)
    (h60 : pyRound ((h - ((pyInt h : ℤ) : ℚ)) * 60) = 60) :
    format_hours_minutes h = "1 hour 60 minutes" := by
  have hpos : ¬ (h ≤ 0) := by
    intro hle
    rw [pyInt] at h1
    by_cases h0 : 0 ≤ h
    · have hz : h = 0 := le_antisymm hle h0
      subst hz
      rw [if_pos h0] at h1
      simp at h1
    · rw [if_neg h0] at h1
      have hc : ⌈h⌉ ≤ 0 := Int.ceil_le.mpr (by exact_mod_cast hle)
      omega
  rw [h1] at h60
  simp only [format_hours_minutes, if_neg hpos, h1, h60]
  decide

/-- Witness for C10 at the input 1.9999: the hours part is 1, the minutes
round to 60, and the rendering is "1 hour 60 minutes". -/
theorem c10_no_carry_sixty_minutes_witness :
    pyInt (19999 / 10000 : ℚ) = 1
      ∧ pyRound (((19999 / 10000 : ℚ) - ((pyInt (19999 / 10000 : ℚ) : ℤ) : ℚ)) * 60) = 60
      ∧ format_hours_minutes (19999 / 10000) = "1 hour 60 minutes" :=
  ⟨by norm_num [pyInt, Rat.floor_def],
   by norm_num [pyInt, pyRound, Rat.floor_def],
   c10_no_carry_sixty_minutes (19999 / 10000)
     (by norm_num [pyInt, Rat.floor_def])
     (by norm_num [pyInt, pyRound, Rat.floor_def])⟩

end SleepApp
